import Mathlib

/-!
A shallow embedding of the surgical theatre scheduling model built by
TheatreScheduler in scheduler.py.

Case and session identifiers are natural numbers.  Every numeric quantity
of the model (case and session durations in minutes, session start times
in minutes since midnight, case deadlines and session dates as ordinal
day counts, and the values of the decision variables) is a rational
number, mirroring the exact arithmetic the constraint rules perform on
the model data.

The embedded pieces are:
* the six constraint families of create_model (constraint rules
  case_start_time, case_end_time, session_assignment,
  set_deadline_condition, no_case_overlap and theatre_util), stated as
  predicates on a valuation of the decision variables;
* the disjunction generator _generate_disjunctions (here
  generate_disjunctions), embedded as the same fold over the cross
  product of cases x cases x sessions with the mirrored-triple
  membership test;
* the failure behaviour of create_model: constraint 6 divides by
  SESSION_DURATION[session], so a zero session duration faults (a
  ZeroDivisionError in the source) during model construction; this is
  embedded with an Except value;
* the reporting part of solve: the per-task result records, the
  cases_assigned list and the cases_missed list.
-/

namespace TheatreScheduler

abbrev CaseId := Nat
abbrev SessionId := Nat
abbrev Triple := Nat × Nat × Nat

/-- The model data drawn from the two CSV files after the conversions the
helper methods perform: per-case expected duration (minutes) and target
deadline (ordinal day), per-session duration (minutes), start time
(minutes since midnight) and date (ordinal day). -/
structure Data where
  cases : List CaseId
  sessions : List SessionId
  caseDuration : CaseId → ℚ
  sessionDuration : SessionId → ℚ
  sessionStart : SessionId → ℚ
  caseDeadline : CaseId → ℚ
  sessionDate : SessionId → ℚ

/-- A valuation of the decision variables of the model: the binary
assignment flags SESSION_ASSIGNED, the case start times CASE_START_TIME
and the session utilisations UTILISATION. -/
structure Solution where
  SESSION_ASSIGNED : CaseId → SessionId → ℚ
  CASE_START_TIME : CaseId → SessionId → ℚ
  UTILISATION : SessionId → ℚ

/-- Upper bound: minutes in a day (ub = 1440 in create_model). -/
def ub : ℚ := 1440

/-- Upper bound of session utilisation, set to 85% in create_model. -/
def max_util : ℚ := 0.85

/-- The big-M constant: model.M is the Param 1e3 * ub = 1440000. -/
def M : ℚ := 1000 * ub

/-- Constraint 1 of create_model (rule case_start_time): a case start
time must be after the start time of the assigned theatre session. -/
def case_start_time (d : Data) (sol : Solution) (c : CaseId) (s : SessionId) : Prop :=
  sol.CASE_START_TIME c s ≥ d.sessionStart s - (1 - sol.SESSION_ASSIGNED c s) * M

/-- Constraint 2 of create_model (rule case_end_time): a case end time
must be before the end time of the assigned theatre session. -/
def case_end_time (d : Data) (sol : Solution) (c : CaseId) (s : SessionId) : Prop :=
  sol.CASE_START_TIME c s + d.caseDuration c ≤
    d.sessionStart s + d.sessionDuration s + (1 - sol.SESSION_ASSIGNED c s) * M

/-- Constraint 3 of create_model (rule session_assignment): a case can be
assigned to at most one session. -/
def session_assignment (d : Data) (sol : Solution) (c : CaseId) : Prop :=
  (d.sessions.map fun s => sol.SESSION_ASSIGNED c s).sum ≤ 1

/-- Constraint 4 of create_model (rule set_deadline_condition): a case
must be completed before its target deadline. -/
def set_deadline_condition (d : Data) (sol : Solution) (c : CaseId) (s : SessionId) : Prop :=
  d.sessionDate s ≤ d.caseDeadline c + (1 - sol.SESSION_ASSIGNED c s) * M

/-- The first inequality returned by the rule no_case_overlap. -/
def no_case_overlap_fst (d : Data) (sol : Solution) (c1 c2 : CaseId) (s : SessionId) : Prop :=
  sol.CASE_START_TIME c1 s + d.caseDuration c1 ≤ sol.CASE_START_TIME c2 s +
    (2 - sol.SESSION_ASSIGNED c1 s - sol.SESSION_ASSIGNED c2 s) * M

/-- The second inequality returned by the rule no_case_overlap. -/
def no_case_overlap_snd (d : Data) (sol : Solution) (c1 c2 : CaseId) (s : SessionId) : Prop :=
  sol.CASE_START_TIME c2 s + d.caseDuration c2 ≤ sol.CASE_START_TIME c1 s +
    (2 - sol.SESSION_ASSIGNED c1 s - sol.SESSION_ASSIGNED c2 s) * M

/-- Constraint 5 of create_model (rule no_case_overlap): the rule returns
a list of two inequalities that form a pyogdp.Disjunction over
model.DISJUNCTIONS, so a feasible point must satisfy at least one of the
two disjuncts. -/
def no_case_overlap (d : Data) (sol : Solution) (c1 c2 : CaseId) (s : SessionId) : Prop :=
  no_case_overlap_fst d sol c1 c2 s ∨ no_case_overlap_snd d sol c1 c2 s

/-- Constraint 6 of create_model (rule theatre_util): utilisation is the
fraction of a theatre session taken up by cases. -/
def theatre_util (d : Data) (sol : Solution) (s : SessionId) : Prop :=
  sol.UTILISATION s = (1 / d.sessionDuration s) *
    (d.cases.map fun c => sol.SESSION_ASSIGNED c s * d.caseDuration c).sum

/-- The declared bounds (0, max_util) of the UTILISATION variables. -/
def utilisation_bounds (sol : Solution) (s : SessionId) : Prop :=
  0 ≤ sol.UTILISATION s ∧ sol.UTILISATION s ≤ max_util

/-- One iteration of the loop body of _generate_disjunctions: append the
triple when the two cases differ and the mirrored triple has not already
been collected. -/
def disjStep (acc : List Triple) (t : Triple) : List Triple :=
  if t.1 ≠ t.2.1 ∧ (t.2.1, t.1, t.2.2) ∉ acc then acc ++ [t] else acc

/-- _generate_disjunctions: fold disjStep over the cross product
product(cases, cases, sessions), in iteration order, starting from the
empty list. -/
def generate_disjunctions (cases sessions : List Nat) : List Triple :=
  (cases.flatMap fun case1 => cases.flatMap fun case2 =>
    sessions.map fun session => (case1, case2, session)).foldl disjStep []

/-- Closed form of the generated disjunction set for duplicate-free case
lists: every case is paired with each case occurring later in the input
list, per session, in iteration order. -/
def canonicalTriples : List Nat → List Nat → List Triple
  | [], _ => []
  | c :: rest, sessions =>
      (rest.flatMap fun c2 => sessions.map fun s => (c, c2, s)) ++
        canonicalTriples rest sessions

/-- model.TASKS: all (case, session) pairs, i.e. CASES x SESSIONS. -/
def TASKS (d : Data) : List (CaseId × SessionId) :=
  d.cases.flatMap fun c => d.sessions.map fun s => (c, s)

/-- The failure create_model can raise: the division 1 / SESSION_DURATION
in the theatre_util rule faults when a session duration is zero (a
ZeroDivisionError in the source).  No other failure is raised by
create_model and in particular no input validation is performed. -/
inductive BuildError where
  | divisionByZero
deriving DecidableEq

/-- The evaluation of 1 / SESSION_DURATION[session] performed for each
session while constraint 6 is constructed; a zero duration faults. -/
def theatre_util_checks : List SessionId → (SessionId → ℚ) → Except BuildError (List ℚ)
  | [], _ => Except.ok []
  | s :: rest, dur =>
      if dur s = 0 then Except.error BuildError.divisionByZero
      else
        match theatre_util_checks rest dur with
        | Except.error e => Except.error e
        | Except.ok l => Except.ok (1 / dur s :: l)

/-- The sets, parameters and constants a successfully constructed model
carries (the constraint families themselves are the predicates above). -/
structure Model where
  CASES : List CaseId
  SESSIONS : List SessionId
  TASKS : List (CaseId × SessionId)
  DISJUNCTIONS : List Triple
  bigM : ℚ
  utilCoeff : List ℚ
deriving DecidableEq

/-- create_model: builds the sets, parameters, variables and the six
constraint families.  The only computation that can fail is the division
by SESSION_DURATION[session] in the theatre_util rule; there is no input
validation and the big-M constant is the fixed value M, never compared
against the data. -/
def create_model (d : Data) : Except BuildError Model :=
  match theatre_util_checks d.sessions d.sessionDuration with
  | Except.error e => Except.error e
  | Except.ok coeffs =>
      Except.ok
        { CASES := d.cases
          SESSIONS := d.sessions
          TASKS := TASKS d
          DISJUNCTIONS := generate_disjunctions d.cases d.sessions
          bigM := M
          utilCoeff := coeffs }

/-- Whether create_model returns a model rather than raising. -/
def buildSucceeds (d : Data) : Bool :=
  match create_model d with
  | Except.ok _ => true
  | Except.error _ => false

/-- One per-task record of the results list built in solve, as a list of
(column, value) pairs with the column names of the source. -/
def solveRecord (d : Data) (sol : Solution) (c : CaseId) (s : SessionId) : List (String × ℚ) :=
  [("Case", (c : ℚ)), ("Session", (s : ℚ)),
   ("Session Date", d.sessionDate s), ("Case Deadline", d.caseDeadline c),
   ("Days before deadline", d.caseDeadline c - d.sessionDate s),
   ("Start", sol.CASE_START_TIME c s), ("Assignment", sol.SESSION_ASSIGNED c s)]

/-- The results list of solve: one record per task. -/
def solveResults (d : Data) (sol : Solution) : List (List (String × ℚ)) :=
  (TASKS d).map fun t => solveRecord d sol t.1 t.2

/-- cases_assigned in solve: the case of every task whose SESSION_ASSIGNED
value is 1 (the iteration runs over all tasks). -/
def cases_assigned (d : Data) (sol : Solution) : List CaseId :=
  ((TASKS d).filter fun t => decide (sol.SESSION_ASSIGNED t.1 t.2 = 1)).map Prod.fst

/-- cases_missed in solve: set difference of all cases and the assigned
cases (embedded by membership, matching the Python set difference). -/
def cases_missed (d : Data) (sol : Solution) : List CaseId :=
  d.cases.filter fun c => decide (c ∉ cases_assigned d sol)

/-- Everything the reporting part of solve computes from the solved
model: the per-task records (stored as self.df_times and printed), and
the assigned and missed case lists (printed).  solve returns None; this
structure is the whole information content of its output. -/
structure SolveOutput where
  results : List (List (String × ℚ))
  casesAssigned : List CaseId
  casesMissed : List CaseId
deriving DecidableEq

/-- The reporting part of solve, as a function of the solved variable
values. -/
def solve (d : Data) (sol : Solution) : SolveOutput :=
  { results := solveResults d sol
    casesAssigned := cases_assigned d sol
    casesMissed := cases_missed d sol }

/-- Concrete data: two cases (durations 60 and 90 minutes, deadlines on
ordinal days 738010 and 738005) and one session of 200 minutes starting
at minute 480 on ordinal day 738003. -/
def exData : Data where
  cases := [1, 2]
  sessions := [1]
  caseDuration := fun c => if c = 1 then 60 else 90
  sessionDuration := fun _ => 200
  sessionStart := fun _ => 480
  caseDeadline := fun c => if c = 1 then 738010 else 738005
  sessionDate := fun _ => 738003

/-- A feasible valuation for exData: both cases assigned to session 1,
case 1 at minute 480, case 2 at minute 540, utilisation 150/200. -/
def exSol : Solution where
  SESSION_ASSIGNED := fun _ _ => 1
  CASE_START_TIME := fun c _ => if c = 1 then 480 else 540
  UTILISATION := fun _ => 3 / 4

/-- The all-unassigned valuation for exData. -/
def exSol0 : Solution where
  SESSION_ASSIGNED := fun _ _ => 0
  CASE_START_TIME := fun _ _ => 0
  UTILISATION := fun _ => 0

/-- Same variable values as exSol except for UTILISATION. -/
def exSolUtil : Solution where
  SESSION_ASSIGNED := fun _ _ => 1
  CASE_START_TIME := fun c _ => if c = 1 then 480 else 540
  UTILISATION := fun _ => 1 / 2

/-- Concrete data with one case and two sessions. -/
def exData2 : Data where
  cases := [1]
  sessions := [1, 2]
  caseDuration := fun _ => 60
  sessionDuration := fun _ => 200
  sessionStart := fun _ => 480
  caseDeadline := fun _ => 738010
  sessionDate := fun s => if s = 1 then 738003 else 738004

/-- A valuation for exData2 assigning case 1 to session 1 only. -/
def exSol2 : Solution where
  SESSION_ASSIGNED := fun _ s => if s = 1 then 1 else 0
  CASE_START_TIME := fun _ _ => 480
  UTILISATION := fun _ => 3 / 10

/-- Concrete data whose single session has duration zero. -/
def exDataZero : Data where
  cases := [1]
  sessions := [1]
  caseDuration := fun _ => 60
  sessionDuration := fun _ => 0
  sessionStart := fun _ => 480
  caseDeadline := fun _ => 738010
  sessionDate := fun _ => 738003

theorem disjStep_subset (acc : List Triple) (t : Triple) : acc ⊆ disjStep acc t := by
  unfold disjStep
  split
  · exact List.subset_append_left _ _
  · exact fun x hx => hx

theorem foldl_disjStep_subset (L : List Triple) :
    ∀ acc : List Triple, acc ⊆ L.foldl disjStep acc := by
  induction L with
  | nil => exact fun acc x hx => hx
  | cons t L ih =>
      intro acc
      simp only [List.foldl_cons]
      exact fun x hx => ih (disjStep acc t) (disjStep_subset acc t hx)

theorem foldl_disjStep_append_left (L : List Triple) :
    ∀ A B : List Triple, (∀ t ∈ L, (t.2.1, t.1, t.2.2) ∉ A) →
      L.foldl disjStep (A ++ B) = A ++ L.foldl disjStep B := by
  induction L with
  | nil => intro A B _; rfl
  | cons t L ih =>
      intro A B h
      have hmir : (t.2.1, t.1, t.2.2) ∉ A := h t (List.mem_cons_self t L)
      have hstep : disjStep (A ++ B) t = A ++ disjStep B t := by
        unfold disjStep
        by_cases hc : t.1 ≠ t.2.1 ∧ (t.2.1, t.1, t.2.2) ∉ B
        · rw [if_pos ⟨hc.1, by simp [List.mem_append, hmir, hc.2]⟩, if_pos hc,
            List.append_assoc]
        · have hna : ¬(t.1 ≠ t.2.1 ∧ (t.2.1, t.1, t.2.2) ∉ A ++ B) := by
            intro hcon
            exact hc ⟨hcon.1, fun hb => hcon.2 (List.mem_append.mpr (Or.inr hb))⟩
          rw [if_neg hna, if_neg hc]
      simp only [List.foldl_cons, hstep]
      exact ih A (disjStep B t) fun t2 ht2 => h t2 (List.mem_cons_of_mem t ht2)

theorem foldl_disjStep_start (L : List Triple) (A : List Triple)
    (h : ∀ t ∈ L, (t.2.1, t.1, t.2.2) ∉ A) :
    L.foldl disjStep A = A ++ L.foldl disjStep [] := by
  have h2 := foldl_disjStep_append_left L A [] h
  rwa [List.append_nil] at h2

theorem foldl_block_add (c1 c2 : Nat) (hne : c1 ≠ c2) (sessions : List Nat) :
    ∀ acc : List Triple, (∀ s, (c2, c1, s) ∉ acc) →
      (sessions.map fun s => (c1, c2, s)).foldl disjStep acc
        = acc ++ sessions.map fun s => (c1, c2, s) := by
  induction sessions with
  | nil => intro acc _; simp
  | cons s ss ih =>
      intro acc hm
      simp only [List.map_cons, List.foldl_cons]
      have hstep : disjStep acc (c1, c2, s) = acc ++ [(c1, c2, s)] := by
        unfold disjStep
        exact if_pos ⟨hne, hm s⟩
      rw [hstep, ih (acc ++ [(c1, c2, s)]) ?_]
      · simp
      intro s2
      simp only [List.mem_append, List.mem_singleton, not_or]
      refine ⟨hm s2, ?_⟩
      intro hEq
      rw [Prod.ext_iff] at hEq
      exact hne hEq.1.symm

theorem foldl_block_same (c : Nat) (sessions : List Nat) :
    ∀ acc : List Triple, (sessions.map fun s => (c, c, s)).foldl disjStep acc = acc := by
  induction sessions with
  | nil => intro acc; rfl
  | cons s ss ih =>
      intro acc
      simp only [List.map_cons, List.foldl_cons]
      have hstep : disjStep acc (c, c, s) = acc := by
        unfold disjStep
        rw [if_neg]
        intro hcon
        exact hcon.1 rfl
      rw [hstep]
      exact ih acc

theorem foldl_block_skip (c1 c2 : Nat) (sessions : List Nat) :
    ∀ acc : List Triple, (∀ s ∈ sessions, (c2, c1, s) ∈ acc) →
      (sessions.map fun s => (c1, c2, s)).foldl disjStep acc = acc := by
  induction sessions with
  | nil => intro acc _; rfl
  | cons s ss ih =>
      intro acc hm
      simp only [List.map_cons, List.foldl_cons]
      have hstep : disjStep acc (c1, c2, s) = acc := by
        unfold disjStep
        rw [if_neg]
        intro hcon
        exact hcon.2 (hm s (List.mem_cons_self s ss))
      rw [hstep]
      exact ih acc fun s2 hs2 => hm s2 (List.mem_cons_of_mem s hs2)

theorem foldl_inner_add (c : Nat) (sessions : List Nat) :
    ∀ (cs : List Nat) (acc : List Triple), c ∉ cs →
      (∀ c2 ∈ cs, ∀ s, (c2, c, s) ∉ acc) →
      (cs.flatMap fun c2 => sessions.map fun s => (c, c2, s)).foldl disjStep acc
        = acc ++ cs.flatMap fun c2 => sessions.map fun s => (c, c2, s) := by
  intro cs
  induction cs with
  | nil => intro acc _ _; simp
  | cons c2 cs ih =>
      intro acc hc hm
      rw [List.flatMap_cons, List.foldl_append]
      have hne : c ≠ c2 := fun h => hc (h ▸ List.mem_cons_self c2 cs)
      rw [foldl_block_add c c2 hne sessions acc (hm c2 (List.mem_cons_self c2 cs))]
      have hm2 : ∀ c3 ∈ cs, ∀ s,
          (c3, c, s) ∉ acc ++ sessions.map fun s => (c, c2, s) := by
        intro c3 hc3 s
        simp only [List.mem_append, not_or]
        constructor
        · exact hm c3 (List.mem_cons_of_mem c2 hc3) s
        · intro hmem
          rcases List.mem_map.mp hmem with ⟨s2, _, hEq⟩
          have h1 : c = c3 := congrArg Prod.fst hEq
          exact hc (List.mem_cons_of_mem c2 (h1 ▸ hc3))
      rw [ih _ (fun h => hc (List.mem_cons_of_mem c2 h)) hm2, List.append_assoc]

theorem outer_fold_drop (c : Nat) (sessions c2R : List Nat) :
    ∀ (c1R : List Nat) (acc : List Triple),
      (∀ c1 ∈ c1R, ∀ s ∈ sessions, (c, c1, s) ∈ acc) →
      (c1R.flatMap fun c1 => (c :: c2R).flatMap fun c2 =>
          sessions.map fun s => (c1, c2, s)).foldl disjStep acc
        = (c1R.flatMap fun c1 => c2R.flatMap fun c2 =>
            sessions.map fun s => (c1, c2, s)).foldl disjStep acc := by
  intro c1R
  induction c1R with
  | nil => intro acc _; rfl
  | cons c1 c1R ih =>
      intro acc hm
      rw [List.flatMap_cons, List.flatMap_cons, List.foldl_append, List.foldl_append,
        List.flatMap_cons, List.foldl_append,
        foldl_block_skip c1 c sessions acc
          (fun s hs => hm c1 (List.mem_cons_self c1 c1R) s hs)]
      exact ih _ fun c3 h s hs =>
        foldl_disjStep_subset _ acc (hm c3 (List.mem_cons_of_mem c1 h) s hs)

theorem generate_disjunctions_cons (c : Nat) (rest sessions : List Nat) (hc : c ∉ rest) :
    generate_disjunctions (c :: rest) sessions
      = (rest.flatMap fun c2 => sessions.map fun s => (c, c2, s))
          ++ generate_disjunctions rest sessions := by
  unfold generate_disjunctions
  rw [List.flatMap_cons, List.foldl_append, List.flatMap_cons, List.foldl_append,
    foldl_block_same c sessions [],
    foldl_inner_add c sessions rest [] hc (fun c2 _ s => List.not_mem_nil _),
    List.nil_append]
  have hmem : ∀ c1 ∈ rest, ∀ s ∈ sessions,
      (c, c1, s) ∈ rest.flatMap fun c2 => sessions.map fun s2 => (c, c2, s2) := by
    intro c1 hc1 s hs
    exact List.mem_flatMap.mpr ⟨c1, hc1, List.mem_map.mpr ⟨s, hs, rfl⟩⟩
  rw [outer_fold_drop c sessions rest rest _ hmem]
  have hmir : ∀ t ∈ (rest.flatMap fun c1 => rest.flatMap fun c2 =>
      sessions.map fun s => (c1, c2, s)),
      (t.2.1, t.1, t.2.2) ∉ rest.flatMap fun c2 => sessions.map fun s2 => (c, c2, s2) := by
    intro t ht
    rcases List.mem_flatMap.mp ht with ⟨c1, hc1, ht2⟩
    rcases List.mem_flatMap.mp ht2 with ⟨c2, hc2, ht3⟩
    rcases List.mem_map.mp ht3 with ⟨s, hs, hEq⟩
    subst hEq
    intro hmem2
    rcases List.mem_flatMap.mp hmem2 with ⟨c3, hc3, hmem3⟩
    rcases List.mem_map.mp hmem3 with ⟨s2, _, hEq2⟩
    have h1 : c = c2 := congrArg Prod.fst hEq2
    exact hc (h1 ▸ hc2)
  rw [foldl_disjStep_start _ _ hmir]

theorem generate_disjunctions_eq_canonical (cases : List Nat) :
    cases.Nodup → ∀ sessions : List Nat,
      generate_disjunctions cases sessions = canonicalTriples cases sessions := by
  induction cases with
  | nil => intro _ sessions; rfl
  | cons c rest ih =>
      intro h sessions
      obtain ⟨hc, hr⟩ := List.nodup_cons.mp h
      rw [generate_disjunctions_cons c rest sessions hc, ih hr sessions]
      rfl

theorem flatMap_pair_length (c : Nat) (sessions : List Nat) :
    ∀ rest : List Nat,
      (rest.flatMap fun c2 => sessions.map fun s => (c, c2, s)).length
        = rest.length * sessions.length := by
  intro rest
  induction rest with
  | nil => simp
  | cons x xs ihx =>
      simp [List.flatMap_cons, ihx, Nat.succ_mul, Nat.add_comm]

theorem canonicalTriples_length (cases sessions : List Nat) :
    (canonicalTriples cases sessions).length
      = Nat.choose cases.length 2 * sessions.length := by
  induction cases with
  | nil => simp [canonicalTriples]
  | cons c rest ih =>
      simp only [canonicalTriples, List.length_append, ih, flatMap_pair_length,
        List.length_cons, Nat.choose_succ_succ, Nat.choose_one_right, Nat.add_mul]

theorem mem_canonicalTriples (cases sessions : List Nat) (a b s : Nat) :
    (a, b, s) ∈ canonicalTriples cases sessions
      ↔ [a, b].Sublist cases ∧ s ∈ sessions := by
  induction cases with
  | nil => simp [canonicalTriples]
  | cons c rest ih =>
      constructor
      · intro hmem
        rcases List.mem_append.mp hmem with hmem | hmem
        · rcases List.mem_flatMap.mp hmem with ⟨c2, hc2, hmem2⟩
          rcases List.mem_map.mp hmem2 with ⟨s2, hs2, hEq⟩
          obtain ⟨h1, h2, h3⟩ : c = a ∧ c2 = b ∧ s2 = s := by
            simpa [Prod.ext_iff] using hEq
          subst h1; subst h2; subst h3
          exact ⟨(List.singleton_sublist.mpr hc2).cons₂ c, hs2⟩
        · rcases ih.mp hmem with ⟨hsub, hs⟩
          exact ⟨hsub.cons c, hs⟩
      · rintro ⟨hsub, hs⟩
        cases hsub with
        | cons _ hsub2 =>
            exact List.mem_append.mpr (Or.inr (ih.mpr ⟨hsub2, hs⟩))
        | cons₂ _ hsub2 =>
            refine List.mem_append.mpr (Or.inl ?_)
            exact List.mem_flatMap.mpr
              ⟨b, List.singleton_sublist.mp hsub2, List.mem_map.mpr ⟨s, hs, rfl⟩⟩

theorem sublist_pair_asymm (l : List Nat) (hl : l.Nodup) (a b : Nat)
    (h1 : [a, b].Sublist l) (h2 : [b, a].Sublist l) : False := by
  induction l with
  | nil => cases h1
  | cons c rest ih =>
      obtain ⟨hcr, hr⟩ := List.nodup_cons.mp hl
      cases h1 with
      | cons _ h1b =>
          cases h2 with
          | cons _ h2b => exact ih hr h1b h2b
          | cons₂ _ h2b => exact hcr (h1b.subset (by simp))
      | cons₂ _ h1b =>
          cases h2 with
          | cons _ h2b => exact hcr (h2b.subset (by simp))
          | cons₂ _ h2b => exact hcr (h1b.subset (by simp))

/-- Claim C2: for a case list with distinct identifiers, the generated
disjunction set has exactly C(n,2) * s triples; every kept triple has two
distinct cases, and for no session do both orientations of an unordered
case pair appear. -/
theorem C2_disjunction_count (cases sessions : List Nat) (h : cases.Nodup) :
    (generate_disjunctions cases sessions).length
        = Nat.choose cases.length 2 * sessions.length ∧
      ∀ a b s, (a, b, s) ∈ generate_disjunctions cases sessions →
        a ≠ b ∧ (b, a, s) ∉ generate_disjunctions cases sessions := by
  rw [generate_disjunctions_eq_canonical cases h sessions]
  refine ⟨canonicalTriples_length cases sessions, ?_⟩
  intro a b s hmem
  rw [mem_canonicalTriples] at hmem
  obtain ⟨hsub, _⟩ := hmem
  constructor
  · intro hab
    subst hab
    have hnd : [a, a].Nodup := hsub.nodup h
    simp at hnd
  · intro hmem2
    rw [mem_canonicalTriples] at hmem2
    exact sublist_pair_asymm cases h a b hsub hmem2.1

theorem C2_witness :
    (generate_disjunctions [1, 2, 3] [10, 20]).length = Nat.choose 3 2 * 2 ∧
      (2, 1, 10) ∉ generate_disjunctions [1, 2, 3] [10, 20] := by
  refine ⟨(C2_disjunction_count [1, 2, 3] [10, 20] (by decide)).1, ?_⟩
  exact ((C2_disjunction_count [1, 2, 3] [10, 20] (by decide)).2 1 2 10 (by decide)).2

/-- Claim C10: for a case list with distinct identifiers, a triple
(a, b, s) is kept exactly when a occurs strictly earlier than b in the
input case list (that is, [a, b] is a sublist of the case list) and s is
one of the sessions: the canonical orientation is the input-list order,
for every session. -/
theorem C10_orientation (cases sessions : List Nat) (h : cases.Nodup) (a b s : Nat) :
    (a, b, s) ∈ generate_disjunctions cases sessions
      ↔ [a, b].Sublist cases ∧ s ∈ sessions := by
  rw [generate_disjunctions_eq_canonical cases h sessions]
  exact mem_canonicalTriples cases sessions a b s

theorem C10_witness :
    (1, 2, 10) ∈ generate_disjunctions [1, 2, 3] [10, 20]
      ↔ [1, 2].Sublist [1, 2, 3] ∧ 10 ∈ [10, 20] :=
  C10_orientation [1, 2, 3] [10, 20] (by decide) 1 2 10

/-- Claim C1: the disjunctive non-overlap constraint generated for a
triple (c1, c2, s).  First part: a feasible point with both cases
assigned to the session has one case ending no later than the other
starts (the relaxation term (2 - a1 - a2) * M vanishes).  Second part:
when the two cases are not both assigned to the session, both
inequalities hold for every choice of start times within the variable
bounds (0, ub) and of case durations in [0, ub], so the disjunction
imposes no restriction. -/
theorem C1_no_overlap (d : Data) (sol : Solution) (c1 c2 : CaseId) (s : SessionId) :
    (no_case_overlap d sol c1 c2 s → sol.SESSION_ASSIGNED c1 s = 1 →
        sol.SESSION_ASSIGNED c2 s = 1 →
        sol.CASE_START_TIME c1 s + d.caseDuration c1 ≤ sol.CASE_START_TIME c2 s ∨
          sol.CASE_START_TIME c2 s + d.caseDuration c2 ≤ sol.CASE_START_TIME c1 s) ∧
      (sol.SESSION_ASSIGNED c1 s + sol.SESSION_ASSIGNED c2 s ≤ 1 →
        0 ≤ sol.CASE_START_TIME c1 s → sol.CASE_START_TIME c1 s ≤ ub →
        0 ≤ sol.CASE_START_TIME c2 s → sol.CASE_START_TIME c2 s ≤ ub →
        0 ≤ d.caseDuration c1 → d.caseDuration c1 ≤ ub →
        0 ≤ d.caseDuration c2 → d.caseDuration c2 ≤ ub →
        no_case_overlap_fst d sol c1 c2 s ∧ no_case_overlap_snd d sol c1 c2 s) := by
  have hM : M = 1440000 := by norm_num [M, ub]
  have hub : ub = 1440 := by norm_num [ub]
  constructor
  · intro hd h1 h2
    unfold no_case_overlap no_case_overlap_fst no_case_overlap_snd at hd
    rw [h1, h2] at hd
    have h0 : (2 - (1:ℚ) - 1) * M = 0 := by ring
    rw [h0, add_zero, add_zero] at hd
    exact hd
  · intro hsum hb1 hb2 hb3 hb4 hd1 hd2 hd3 hd4
    have hco : (1:ℚ) ≤ 2 - sol.SESSION_ASSIGNED c1 s - sol.SESSION_ASSIGNED c2 s := by
      linarith
    have hMle : M ≤ (2 - sol.SESSION_ASSIGNED c1 s - sol.SESSION_ASSIGNED c2 s) * M := by
      have h2 := mul_le_mul_of_nonneg_right hco (by rw [hM]; norm_num :
        (0:ℚ) ≤ M)
      rwa [one_mul] at h2
    constructor
    · unfold no_case_overlap_fst
      linarith
    · unfold no_case_overlap_snd
      linarith

theorem C1_witness :
    (exSol.CASE_START_TIME 1 1 + exData.caseDuration 1 ≤ exSol.CASE_START_TIME 2 1 ∨
        exSol.CASE_START_TIME 2 1 + exData.caseDuration 2 ≤ exSol.CASE_START_TIME 1 1) ∧
      (no_case_overlap_fst exData exSol0 1 2 1 ∧ no_case_overlap_snd exData exSol0 1 2 1) := by
  constructor
  · exact (C1_no_overlap exData exSol 1 2 1).1
      (Or.inl (by norm_num [no_case_overlap_fst, exData, exSol, M, ub]))
      (by norm_num [exSol]) (by norm_num [exSol])
  · exact (C1_no_overlap exData exSol0 1 2 1).2 (by norm_num [exSol0])
      (by norm_num [exSol0]) (by norm_num [exSol0, ub]) (by norm_num [exSol0])
      (by norm_num [exSol0, ub]) (by norm_num [exData]) (by norm_num [exData, ub])
      (by norm_num [exData]) (by norm_num [exData, ub])

/-- Claim C3: the deadline constraint session_date <= case_deadline +
(1 - assigned) * M is in the model for every task.  First part: a
feasible point with the task assigned satisfies session_date <=
case_deadline.  Second part: with the task unassigned the constraint
holds whenever the date parameters are within M of each other (the
constraint involves no other decision variable, so it is non-binding). -/
theorem C3_deadline (d : Data) (sol : Solution) (c : CaseId) (s : SessionId) :
    (set_deadline_condition d sol c s → sol.SESSION_ASSIGNED c s = 1 →
        d.sessionDate s ≤ d.caseDeadline c) ∧
      (sol.SESSION_ASSIGNED c s = 0 →
        d.sessionDate s ≤ d.caseDeadline c + M → set_deadline_condition d sol c s) := by
  constructor
  · intro hcon h1
    unfold set_deadline_condition at hcon
    rw [h1] at hcon
    have h0 : (1 - (1:ℚ)) * M = 0 := by ring
    rw [h0, add_zero] at hcon
    exact hcon
  · intro h0 hle
    unfold set_deadline_condition
    rw [h0]
    have h1 : (1 - (0:ℚ)) * M = M := by ring
    rw [h1]
    exact hle

theorem C3_witness :
    exData.sessionDate 1 ≤ exData.caseDeadline 1 ∧
      set_deadline_condition exData exSol0 1 1 := by
  constructor
  · exact (C3_deadline exData exSol 1 1).1
      (by norm_num [set_deadline_condition, exData, exSol, M, ub]) (by norm_num [exSol])
  · exact (C3_deadline exData exSol0 1 1).2 (by norm_num [exSol0])
      (by norm_num [exData, M, ub])

/-- Claim C4: the two containment constraints generated for every task.
First parts: a feasible point with the task assigned has the case start
at or after the session start, and the case end at or before the session
end.  Last part: with the task unassigned, both constraints hold for
every start-time value within the variable bounds (0, ub), given session
parameters in the same range, so they are trivially satisfiable. -/
theorem C4_containment (d : Data) (sol : Solution) (c : CaseId) (s : SessionId) :
    (case_start_time d sol c s → sol.SESSION_ASSIGNED c s = 1 →
        d.sessionStart s ≤ sol.CASE_START_TIME c s) ∧
      (case_end_time d sol c s → sol.SESSION_ASSIGNED c s = 1 →
        sol.CASE_START_TIME c s + d.caseDuration c ≤
          d.sessionStart s + d.sessionDuration s) ∧
      (sol.SESSION_ASSIGNED c s = 0 →
        0 ≤ sol.CASE_START_TIME c s → sol.CASE_START_TIME c s ≤ ub →
        0 ≤ d.sessionStart s → d.sessionStart s ≤ ub →
        0 ≤ d.sessionDuration s → 0 ≤ d.caseDuration c → d.caseDuration c ≤ ub →
        case_start_time d sol c s ∧ case_end_time d sol c s) := by
  have hM : M = 1440000 := by norm_num [M, ub]
  have hub : ub = 1440 := by norm_num [ub]
  refine ⟨?_, ?_, ?_⟩
  · intro hcon h1
    unfold case_start_time at hcon
    rw [h1] at hcon
    have h0 : (1 - (1:ℚ)) * M = 0 := by ring
    rw [h0, sub_zero] at hcon
    exact hcon
  · intro hcon h1
    unfold case_end_time at hcon
    rw [h1] at hcon
    have h0 : (1 - (1:ℚ)) * M = 0 := by ring
    rw [h0, add_zero] at hcon
    exact hcon
  · intro h0 hb1 hb2 hs1 hs2 hs3 hd1 hd2
    have h1 : (1 - (0:ℚ)) * M = M := by ring
    constructor
    · unfold case_start_time
      rw [h0, h1]
      linarith
    · unfold case_end_time
      rw [h0, h1]
      linarith

theorem C4_witness :
    exData.sessionStart 1 ≤ exSol.CASE_START_TIME 1 1 ∧
      exSol.CASE_START_TIME 1 1 + exData.caseDuration 1 ≤
        exData.sessionStart 1 + exData.sessionDuration 1 ∧
      (case_start_time exData exSol0 1 1 ∧ case_end_time exData exSol0 1 1) := by
  refine ⟨?_, ?_, ?_⟩
  · exact (C4_containment exData exSol 1 1).1
      (by norm_num [case_start_time, exData, exSol, M, ub]) (by norm_num [exSol])
  · exact (C4_containment exData exSol 1 1).2.1
      (by norm_num [case_end_time, exData, exSol, M, ub]) (by norm_num [exSol])
  · exact (C4_containment exData exSol0 1 1).2.2 (by norm_num [exSol0])
      (by norm_num [exSol0]) (by norm_num [exSol0, ub]) (by norm_num [exData])
      (by norm_num [exData, ub]) (by norm_num [exData]) (by norm_num [exData])
      (by norm_num [exData, ub])

/-- Claim C5: the session_assignment constraint bounds the sum of the
binary assignment flags of a case by one, so a feasible point never
assigns a case to two distinct sessions. -/
theorem C5_single_assignment (d : Data) (sol : Solution) (c : CaseId)
    (hbin : ∀ s ∈ d.sessions,
      sol.SESSION_ASSIGNED c s = 0 ∨ sol.SESSION_ASSIGNED c s = 1)
    (hcon : session_assignment d sol c) (s1 s2 : SessionId)
    (hs1 : s1 ∈ d.sessions) (hs2 : s2 ∈ d.sessions) (hne : s1 ≠ s2) :
    ¬(sol.SESSION_ASSIGNED c s1 = 1 ∧ sol.SESSION_ASSIGNED c s2 = 1) := by
  rintro ⟨h1, h2⟩
  unfold session_assignment at hcon
  have hperm := (List.perm_cons_erase hs1).map fun s => sol.SESSION_ASSIGNED c s
  have hsum := hperm.sum_eq
  rw [List.map_cons, List.sum_cons] at hsum
  have hs2e : s2 ∈ d.sessions.erase s1 := (List.mem_erase_of_ne hne.symm).mpr hs2
  have hmem2 : sol.SESSION_ASSIGNED c s2
      ∈ (d.sessions.erase s1).map fun s => sol.SESSION_ASSIGNED c s :=
    List.mem_map_of_mem _ hs2e
  have hnn : ∀ x ∈ (d.sessions.erase s1).map fun s => sol.SESSION_ASSIGNED c s,
      0 ≤ x := by
    intro x hx
    rcases List.mem_map.mp hx with ⟨s, hsx, rfl⟩
    rcases hbin s (List.mem_of_mem_erase hsx) with h | h <;> simp [h]
  have hle := List.single_le_sum hnn _ hmem2
  rw [hsum, h1] at hcon
  rw [h2] at hle
  linarith

theorem C5_witness :
    ¬(exSol2.SESSION_ASSIGNED 1 1 = 1 ∧ exSol2.SESSION_ASSIGNED 1 2 = 1) :=
  C5_single_assignment exData2 exSol2 1 (by norm_num [exData2, exSol2])
    (by norm_num [session_assignment, exData2, exSol2]) 1 2
    (by norm_num [exData2]) (by norm_num [exData2]) (by norm_num)

/-- Claim C6: the UTILISATION variable carries the bounds (0, max_util)
with max_util = 0.85, and the theatre_util constraint defines it as
(1 / session_duration) times the assigned case durations, so at a
feasible point (for a nonzero session duration) the utilisation lies in
[0, 0.85] and multiplied by the session duration gives the total
assigned case duration of that session. -/
theorem C6_utilisation (d : Data) (sol : Solution) (s : SessionId)
    (hdur : d.sessionDuration s ≠ 0)
    (hb : utilisation_bounds sol s) (hc : theatre_util d sol s) :
    0 ≤ sol.UTILISATION s ∧ sol.UTILISATION s ≤ max_util ∧
      sol.UTILISATION s * d.sessionDuration s
        = (d.cases.map fun c => sol.SESSION_ASSIGNED c s * d.caseDuration c).sum := by
  refine ⟨hb.1, hb.2, ?_⟩
  unfold theatre_util at hc
  rw [hc]
  field_simp

theorem C6_witness :
    0 ≤ exSol.UTILISATION 1 ∧ exSol.UTILISATION 1 ≤ max_util ∧
      exSol.UTILISATION 1 * exData.sessionDuration 1
        = (exData.cases.map fun c =>
            exSol.SESSION_ASSIGNED c 1 * exData.caseDuration c).sum :=
  C6_utilisation exData exSol 1 (by norm_num [exData])
    (by norm_num [utilisation_bounds, exSol, max_util])
    (by norm_num [theatre_util, exData, exSol])

theorem sum_map_ones (f : SessionId → ℚ) :
    ∀ l : List SessionId, (∀ s ∈ l, f s = 1) → (l.map f).sum = (l.length : ℚ) := by
  intro l
  induction l with
  | nil => intro _; simp
  | cons s rest ih =>
      intro h
      rw [List.map_cons, List.sum_cons, h s (List.mem_cons_self s rest),
        ih fun s2 hs2 => h s2 (List.mem_cons_of_mem s hs2), List.length_cons]
      push_cast
      ring

theorem filter_ones_length_le (f : SessionId → ℚ) (l : List SessionId)
    (hbin : ∀ s ∈ l, f s = 0 ∨ f s = 1) (hsum : (l.map f).sum ≤ 1) :
    (l.filter fun s => decide (f s = 1)).length ≤ 1 := by
  have hsub : (l.filter fun s => decide (f s = 1)).Sublist l := List.filter_sublist l
  have hones : ∀ s ∈ l.filter fun s => decide (f s = 1), f s = 1 := by
    intro s hs
    exact of_decide_eq_true (List.mem_filter.mp hs).2
  have hmap := sum_map_ones f _ hones
  have hmax : ((l.filter fun s => decide (f s = 1)).map f).sum ≤ (l.map f).sum := by
    refine List.Sublist.sum_le_sum (hsub.map f) ?_
    intro x hx
    rcases List.mem_map.mp hx with ⟨s, hsx, rfl⟩
    rcases hbin s hsx with h | h <;> simp [h]
  have hlen : ((l.filter fun s => decide (f s = 1)).length : ℚ) ≤ 1 := by
    rw [← hmap]
    exact hmax.trans hsum
  exact_mod_cast hlen

theorem filter_ones_length_eq_one (f : SessionId → ℚ) (l : List SessionId)
    (hbin : ∀ s ∈ l, f s = 0 ∨ f s = 1) (hsum : (l.map f).sum ≤ 1) :
    (l.filter fun s => decide (f s = 1)).length = 1 ↔ ∃ s ∈ l, f s = 1 := by
  constructor
  · intro h
    have hne : l.filter (fun s => decide (f s = 1)) ≠ [] := by
      intro h0
      rw [h0] at h
      simp at h
    rcases List.exists_mem_of_ne_nil _ hne with ⟨s, hs⟩
    exact ⟨s, (List.mem_filter.mp hs).1, of_decide_eq_true (List.mem_filter.mp hs).2⟩
  · rintro ⟨s, hs, h1⟩
    have hmem : s ∈ l.filter fun s => decide (f s = 1) :=
      List.mem_filter.mpr ⟨hs, decide_eq_true h1⟩
    have hpos := List.length_pos_of_mem hmem
    have hle := filter_ones_length_le f l hbin hsum
    omega

theorem mem_cases_assigned (d : Data) (sol : Solution) (c : CaseId) :
    c ∈ cases_assigned d sol
      ↔ c ∈ d.cases ∧ ∃ s ∈ d.sessions, sol.SESSION_ASSIGNED c s = 1 := by
  unfold cases_assigned TASKS
  constructor
  · intro h
    rcases List.mem_map.mp h with ⟨t, ht, hfst⟩
    have hf := List.mem_filter.mp ht
    rcases List.mem_flatMap.mp hf.1 with ⟨c2, hc2, ht2⟩
    rcases List.mem_map.mp ht2 with ⟨s, hs, hEq⟩
    subst hEq
    have hcc : c2 = c := hfst
    subst hcc
    exact ⟨hc2, s, hs, of_decide_eq_true hf.2⟩
  · rintro ⟨hc, s, hs, h1⟩
    refine List.mem_map.mpr ⟨(c, s), ?_, rfl⟩
    refine List.mem_filter.mpr ⟨?_, decide_eq_true h1⟩
    exact List.mem_flatMap.mpr ⟨c, hc, List.mem_map.mpr ⟨s, hs, rfl⟩⟩

theorem mem_cases_missed (d : Data) (sol : Solution) (c : CaseId) :
    c ∈ cases_missed d sol ↔ c ∈ d.cases ∧ c ∉ cases_assigned d sol := by
  unfold cases_missed
  rw [List.mem_filter]
  constructor
  · rintro ⟨h1, h2⟩
    exact ⟨h1, of_decide_eq_true h2⟩
  · rintro ⟨h1, h2⟩
    exact ⟨h1, decide_eq_true h2⟩

/-- Claim C7, amended: the reporting part of solve emits one record per
task holding the case, session, session date, case deadline, slack,
start time and assignment flag; at a feasible point the assigned-case
list contains exactly the cases with exactly one assigned session, and
the missed-case list contains exactly the remaining cases.  Per-session
utilisation is not part of the emitted output (see the counterexample
theorem). -/
theorem C7_report (d : Data) (sol : Solution)
    (hbin : ∀ c ∈ d.cases, ∀ s ∈ d.sessions,
      sol.SESSION_ASSIGNED c s = 0 ∨ sol.SESSION_ASSIGNED c s = 1)
    (hcon : ∀ c ∈ d.cases, session_assignment d sol c) :
    (solve d sol).results = (TASKS d).map (fun t => solveRecord d sol t.1 t.2) ∧
      (∀ c s, ("Case", (c : ℚ)) ∈ solveRecord d sol c s ∧
        ("Session", (s : ℚ)) ∈ solveRecord d sol c s ∧
        ("Session Date", d.sessionDate s) ∈ solveRecord d sol c s ∧
        ("Case Deadline", d.caseDeadline c) ∈ solveRecord d sol c s ∧
        ("Days before deadline", d.caseDeadline c - d.sessionDate s) ∈
          solveRecord d sol c s ∧
        ("Start", sol.CASE_START_TIME c s) ∈ solveRecord d sol c s ∧
        ("Assignment", sol.SESSION_ASSIGNED c s) ∈ solveRecord d sol c s) ∧
      (∀ c, c ∈ (solve d sol).casesAssigned ↔
        c ∈ d.cases ∧
          (d.sessions.filter fun s =>
            decide (sol.SESSION_ASSIGNED c s = 1)).length = 1) ∧
      (∀ c, c ∈ (solve d sol).casesMissed ↔
        c ∈ d.cases ∧ c ∉ (solve d sol).casesAssigned) := by
  refine ⟨rfl, ?_, ?_, ?_⟩
  · intro c s
    refine ⟨?_, ?_, ?_, ?_, ?_, ?_, ?_⟩ <;> simp [solveRecord]
  · intro c
    show c ∈ cases_assigned d sol ↔
      c ∈ d.cases ∧
        (d.sessions.filter fun s => decide (sol.SESSION_ASSIGNED c s = 1)).length = 1
    rw [mem_cases_assigned]
    constructor
    · rintro ⟨hc, hex⟩
      exact ⟨hc, (filter_ones_length_eq_one _ _ (hbin c hc) (hcon c hc)).mpr hex⟩
    · rintro ⟨hc, hlen⟩
      exact ⟨hc, (filter_ones_length_eq_one _ _ (hbin c hc) (hcon c hc)).mp hlen⟩
  · intro c
    show c ∈ cases_missed d sol ↔ c ∈ d.cases ∧ c ∉ cases_assigned d sol
    exact mem_cases_missed d sol c

theorem C7_witness :
    ("Start", exSol.CASE_START_TIME 1 1) ∈ solveRecord exData exSol 1 1 ∧
      (1 ∈ (solve exData exSol).casesAssigned ↔
        1 ∈ exData.cases ∧
          (exData.sessions.filter fun s =>
            decide (exSol.SESSION_ASSIGNED 1 s = 1)).length = 1) ∧
      (1 ∈ (solve exData exSol).casesMissed ↔
        1 ∈ exData.cases ∧ 1 ∉ (solve exData exSol).casesAssigned) := by
  refine ⟨?_, ?_, ?_⟩
  · exact ((C7_report exData exSol (by norm_num [exData, exSol])
      (by norm_num [session_assignment, exData, exSol])).2.1 1 1).2.2.2.2.2.1
  · exact (C7_report exData exSol (by norm_num [exData, exSol])
      (by norm_num [session_assignment, exData, exSol])).2.2.1 1
  · exact (C7_report exData exSol (by norm_num [exData, exSol])
      (by norm_num [session_assignment, exData, exSol])).2.2.2 1

/-- Claim C7, counterexample: the output of solve is identical for two
solved models that differ only in the UTILISATION values, so per-session
utilisation is not part of the emitted report, contrary to the claim. -/
theorem C7_counterexample :
    solve exData exSol = solve exData exSolUtil ∧
      exSol.UTILISATION 1 ≠ exSolUtil.UTILISATION 1 := by
  constructor
  · rfl
  · norm_num [exSol, exSolUtil]

/-- Claim C8: at the failing input (a session of duration zero),
create_model faults with the division error raised while constraint 6 is
constructed; no input-validation error precedes model construction. -/
theorem C8_zero_duration :
    create_model exDataZero = Except.error BuildError.divisionByZero := rfl

/-- Claim C9, counterexample: with a case deadline of ordinal day 738010
in the data, the big-M constant 1440000 is smaller than ten times that
quantity, yet create_model succeeds without any flag or failure. -/
theorem C9_counterexample :
    buildSucceeds exData = true ∧ M < 10 * exData.caseDeadline 1 := by
  constructor
  · rfl
  · norm_num [M, ub, exData]

/-- Claim C9, amended: the big-M constant is the fixed value
1000 * 1440 = 1440000 and is never compared against the data: model
construction succeeds for any data whose session durations are all
nonzero, regardless of the magnitudes appearing in the model. -/
theorem C9_no_validation (d : Data)
    (h : ∀ s ∈ d.sessions, d.sessionDuration s ≠ 0) :
    buildSucceeds d = true := by
  have hok : ∀ l : List SessionId, (∀ s ∈ l, d.sessionDuration s ≠ 0) →
      ∃ coeffs, theatre_util_checks l d.sessionDuration = Except.ok coeffs := by
    intro l
    induction l with
    | nil => intro _; exact ⟨[], rfl⟩
    | cons s rest ih =>
        intro hl
        rcases ih (fun s2 hs2 => hl s2 (List.mem_cons_of_mem s hs2)) with ⟨cs, hcs⟩
        refine ⟨1 / d.sessionDuration s :: cs, ?_⟩
        unfold theatre_util_checks
        rw [if_neg (hl s (List.mem_cons_self s rest)), hcs]
  rcases hok d.sessions h with ⟨cs, hcs⟩
  unfold buildSucceeds create_model
  rw [hcs]

theorem C9_witness : buildSucceeds exData = true :=
  C9_no_validation exData (by norm_num [exData])

end TheatreScheduler
